import Mathlib

/-!
# spotify-utils: a verification development of `main.go`

The program logs in with the OAuth2 authorization-code flow, pages through the
saved albums of the user and, after an interactive confirmation, deletes them
in batches.  Every function of `main.go` is embedded as a Lean function.

* Everything the program reads from outside (the `openssl` output, the requests
  reaching `/callback`, the HTTP replies, the answer to the prompt) is a field
  of a `World`; the functions are pure in that record.
* A call yields a `Run`: the ordered list of the externally visible events it
  produced and the way it ended (`returned`, `fatal` for `logger.Fatal`,
  `panicked` for a failed unchecked type assertion, `blocked` for a channel
  receive that is never served, `outOfFuel` for a loop still running when the
  iteration budget of the model ended).
* `encoding/json`, `net/url` and `net/http` are libraries: a body is given by
  the document `json.Unmarshal` decodes from it, a query string by its decoded
  key/value pairs.
-/

set_option linter.unusedVariables false

namespace SpotifyUtils

/-! ## Decoded JSON documents -/

/-- Value tree `json.Unmarshal` stores into an `interface{}`. A Go
`map[string]interface{}` is a key/value list in which a key is looked up by its
first binding. `num n` is a JSON number given by the value `n` that the Go
conversion `int(f)` yields for it (exact for integral numbers below `2^53`). -/
inductive JVal where
  | null : JVal
  | bool (b : Bool) : JVal
  | num (n : Int) : JVal
  | str (s : String) : JVal
  | arr (xs : List JVal) : JVal
  | obj (kvs : List (String × JVal)) : JVal

/-- Go `map[string]interface{}`. -/
abbrev JMap := List (String × JVal)

/-- Map index `m[key]`: the bound value, `none` for the nil interface of a
missing key. -/
def JMap.get (m : JMap) (key : String) : Option JVal :=
  match m with
  | [] => none
  | (k, v) :: rest => if k = key then some v else JMap.get rest key

/-- Type assertion `v.(map[string]interface{})`; `none` when it fails. -/
def asMap : Option JVal → Option JMap
  | some (.obj kvs) => some kvs
  | _ => none

/-- Type assertion `v.(string)`; `none` when it fails. -/
def asString : Option JVal → Option String
  | some (.str s) => some s
  | _ => none

/-- Type assertion `v.([]interface{})`; `none` when it fails. -/
def asArray : Option JVal → Option (List JVal)
  | some (.arr xs) => some xs
  | _ => none

/-- Type assertion `v.(float64)` followed by `int(...)`; `none` when the
assertion fails. -/
def asNumber : Option JVal → Option Int
  | some (.num n) => some n
  | _ => none

/-- Result of `json.Unmarshal(body, &result)` for a nil `result` of type
`map[string]interface{}`: an object gives its map, `null` leaves the map nil
(no error), every other document is an error (`none`). -/
def unmarshalMap : JVal → Option JMap
  | .obj kvs => some kvs
  | .null => some []
  | _ => none

/-! ## Replies, events, runs -/

/-- What an HTTP exchange of the program can give: `http.NewRequest` fails,
`client.Do` fails, `io.ReadAll` fails, or a body arrives; `doc` is the JSON
document of the body, `none` when the body is not JSON. -/
inductive HttpReply where
  | createError : HttpReply
  | transportError : HttpReply
  | readError : HttpReply
  | body (status : Nat) (doc : Option JVal) : HttpReply

/-- What a DELETE exchange can give; its body is never read. -/
inductive DeleteReply where
  | createError : DeleteReply
  | transportError : DeleteReply
  | status (code : Nat) : DeleteReply
  deriving DecidableEq, Repr

/-- Externally visible actions, in the order the program performs them. -/
inductive Event where
  | info (msg : String) : Event
  | execOpenssl : Event
  | listen (addr : String) : Event
  | openBrowser (url : String) : Event
  | callbackResponse (status : Nat) (page : String) : Event
  | tokenPost (code : String) : Event
  | albumsGet (limit offset : Nat) : Event
  | confirmPrompt (answer : Bool) : Event
  | progressStart (total : Nat) : Event
  | progressTitle (done total : Nat) : Event
  | progressAdd (count : Nat) : Event
  | albumsDelete (ids : List String) : Event
  deriving DecidableEq, Repr

/-- How a call ended. -/
inductive Outcome (α : Type) where
  | returned (a : α) : Outcome α
  | fatal (msg : String) : Outcome α
  | panicked : Outcome α
  | blocked : Outcome α
  | outOfFuel : Outcome α
  deriving DecidableEq, Repr

/-- Events of a call and the way it ended. -/
structure Run (α : Type) where
  trace : List Event
  outcome : Outcome α

/-- Sequencing: the second call runs only when the first one returned. -/
def Run.bind {α β : Type} (r : Run α) (f : α → Run β) : Run β :=
  match r.outcome with
  | .returned a => ⟨r.trace ++ (f a).trace, (f a).outcome⟩
  | .fatal msg => ⟨r.trace, .fatal msg⟩
  | .panicked => ⟨r.trace, .panicked⟩
  | .blocked => ⟨r.trace, .blocked⟩
  | .outOfFuel => ⟨r.trace, .outOfFuel⟩

/-- Events come first, then the rest of the call. -/
def Run.after {α : Type} (es : List Event) (r : Run α) : Run α :=
  ⟨es ++ r.trace, r.outcome⟩

/-- DELETE requests of a trace, in order, each as its list of identifiers. -/
def deleteRequests : List Event → List (List String)
  | [] => []
  | .albumsDelete ids :: rest => ids :: deleteRequests rest
  | _ :: rest => deleteRequests rest

/-- GET requests for saved albums of a trace, in order, as (limit, offset). -/
def albumsGets : List Event → List (Nat × Nat)
  | [] => []
  | .albumsGet limit offset :: rest => (limit, offset) :: albumsGets rest
  | _ :: rest => albumsGets rest

/-- Answers of the confirmation prompts a trace shows. -/
def prompts : List Event → List Bool
  | [] => []
  | .confirmPrompt b :: rest => b :: prompts rest
  | _ :: rest => prompts rest

/-- Amounts passed to `p.Add`, in order. -/
def progressAdds : List Event → List Nat
  | [] => []
  | .progressAdd n :: rest => n :: progressAdds rest
  | _ :: rest => progressAdds rest

/-- Pairs `end/total` passed to `p.UpdateTitle`, in order. -/
def progressTitles : List Event → List (Nat × Nat)
  | [] => []
  | .progressTitle d t :: rest => (d, t) :: progressTitles rest
  | _ :: rest => progressTitles rest

/-! ## Configuration and environment -/

/-- Struct `Config` of `main.go`. -/
structure Config where
  Debug : Bool
  ClientID : String
  ClientSecret : String
  LocalServer : String
  RedirectURI : String
  Scope : String

/-- Decoded query string of a request, `r.URL.Query()`, as key/value pairs in
order of appearance. -/
abbrev Query := List (String × String)

/-- Method `url.Values.Get`: the first value bound to the key, the empty string
when there is none. -/
def Query.get (q : Query) (key : String) : String :=
  match q with
  | [] => ""
  | (k, v) :: rest => if k = key then v else Query.get rest key

/-- Method `url.Values.Has`: the key occurs in the query string. -/
def Query.has (q : Query) (key : String) : Bool :=
  match q with
  | [] => false
  | (k, _) :: rest => if k = key then true else Query.has rest key

/-- Everything the program reads from outside. -/
structure World where
  cfg : Config
  /-- Function `url.QueryEscape`. -/
  queryEscape : String → String
  /-- Function `strings.TrimSpace`. -/
  trimSpace : String → String
  /-- Output of `openssl rand -hex 16`, `none` when the command fails. -/
  opensslOutput : Option String
  /-- Whether `http.ListenAndServe` returns (it only returns an error). -/
  listenFails : Bool
  /-- Requests reaching `/callback` while `authorize` waits, in order. -/
  callbacks : List Query
  /-- Reply of the token endpoint. -/
  tokenReply : HttpReply
  /-- Reply to the GET number `k` (from 0), which asks for `offset`. -/
  albumsReply : (k : Nat) → (offset : Nat) → HttpReply
  /-- Answer of `pterm.DefaultInteractiveConfirm.Show()`. -/
  confirm : Bool
  /-- Reply to the DELETE number `k` (from 0) for the identifiers `ids`. -/
  deleteReply : (k : Nat) → (ids : List String) → DeleteReply

/-! ## The functions of `main.go` -/

/-- Function `generateState`. -/
def generateState (w : World) : Run String :=
  match w.opensslOutput with
  | none => ⟨[.execOpenssl], .fatal "failed to generate state"⟩
  | some out => ⟨[.execOpenssl], .returned (w.trimSpace out)⟩

/-- What one call of the `/callback` handler does: the response it writes and
the value it sends on `authCodeChan`, if any. -/
structure HandlerResult where
  status : Nat
  page : String
  sent : Option String
  deriving DecidableEq, Repr

/-- Handler registered by `startHTTPServer` for `/callback`. -/
def callbackHandler (q : Query) : HandlerResult :=
  let code := q.get "code"
  if code ≠ "" then
    ⟨200, "authorization code received. you can close this window.", some code⟩
  else
    ⟨401, "authorization failed\n", none⟩

/-- Receive `<-authCodeChan`: the requests are handled in order until one
sends a code; when none does, the receive never completes. -/
def awaitCode : List Query → Run String
  | [] => ⟨[], .blocked⟩
  | q :: rest =>
    let res := callbackHandler q
    match res.sent with
    | some code => ⟨[.callbackResponse res.status res.page], .returned code⟩
    | none => Run.after [.callbackResponse res.status res.page] (awaitCode rest)

/-- URL built in `authorize`. -/
def authURL (w : World) (state : String) : String :=
  "https://accounts.spotify.com/authorize?response_type=code&client_id=" ++ w.cfg.ClientID
    ++ "&scope=" ++ w.queryEscape w.cfg.Scope
    ++ "&redirect_uri=" ++ w.queryEscape w.cfg.RedirectURI
    ++ "&state=" ++ state

/-- Function `authorize` together with the goroutine `startHTTPServer`: a
listener that cannot start ends the process with `logger.Fatal`. -/
def authorize (w : World) (state : String) : Run String :=
  Run.after [.info "starting local server for oauth callback", .listen w.cfg.LocalServer]
    (if w.listenFails then
      ⟨[], .fatal "failed to start http server"⟩
    else
      Run.after [.info "opening browser for spotify authorization",
                 .openBrowser (authURL w state),
                 .info "waiting for oauth callback"]
        ((awaitCode w.callbacks).bind fun code =>
          ⟨[.info "oauth callback received"], .returned code⟩))

/-- Function `getAccessToken`. -/
def getAccessToken (w : World) (authCode : String) : Run String :=
  match w.tokenReply with
  | .createError => ⟨[], .fatal "failed to create request"⟩
  | .transportError => ⟨[.tokenPost authCode], .fatal "failed to get access token"⟩
  | .readError => ⟨[.tokenPost authCode], .fatal "failed to read response body"⟩
  | .body _ none => ⟨[.tokenPost authCode], .fatal "failed to unmarshal response"⟩
  | .body _ (some doc) =>
    match unmarshalMap doc with
    | none => ⟨[.tokenPost authCode], .fatal "failed to unmarshal response"⟩
    | some result =>
      match asString (result.get "access_token") with
      | none => ⟨[.tokenPost authCode], .fatal "access token not found in response"⟩
      | some accessToken => ⟨[.tokenPost authCode], .returned accessToken⟩

/-- Type assertion of line 184, element by element: `none` when an element of
`items` is not a map (the assertion is unchecked, so the program panics). -/
def assertMaps : List JVal → Option (List JMap)
  | [] => some []
  | v :: rest =>
    match asMap (some v), assertMaps rest with
    | some m, some ms => some (m :: ms)
    | _, _ => none

/-- Loop of `fetchSavedAlbums` (lines 153 to 193): `limit` is the local constant
of line 151, `k` counts the requests made so far, `fuel` bounds the number of
iterations the model follows. -/
def fetchLoop (w : World) (limit : Nat) :
    (fuel : Nat) → (k offset : Nat) → (allItems : List JMap) → Run (List JMap)
  | 0, _, _, _ => ⟨[], .outOfFuel⟩
  | fuel + 1, k, offset, allItems =>
    match w.albumsReply k offset with
    | .createError => ⟨[], .fatal "failed to create request"⟩
    | .transportError => ⟨[.albumsGet limit offset], .fatal "failed to fetch saved albums"⟩
    | .readError => ⟨[.albumsGet limit offset], .fatal "failed to read response body"⟩
    | .body _ none => ⟨[.albumsGet limit offset], .fatal "failed to unmarshal response"⟩
    | .body _ (some doc) =>
      match unmarshalMap doc with
      | none => ⟨[.albumsGet limit offset], .fatal "failed to unmarshal response"⟩
      | some result =>
        match asArray (result.get "items") with
        | none => ⟨[.albumsGet limit offset], .returned allItems⟩
        | some items =>
          if items.length = 0 then
            ⟨[.albumsGet limit offset], .returned allItems⟩
          else
            match assertMaps items with
            | none => ⟨[.albumsGet limit offset], .panicked⟩
            | some maps =>
              match asNumber (result.get "total") with
              | none => ⟨[.albumsGet limit offset], .returned (allItems ++ maps)⟩
              | some total =>
                if ((offset + limit : Nat) : Int) ≥ total then
                  ⟨[.albumsGet limit offset], .returned (allItems ++ maps)⟩
                else
                  Run.after [.albumsGet limit offset]
                    (fetchLoop w limit fuel (k + 1) (offset + limit) (allItems ++ maps))

/-- Function `fetchSavedAlbums` for a page size `limit`. -/
def fetchSavedAlbumsWith (w : World) (limit : Nat) (accessToken : String) (fuel : Nat) :
    Run (List JMap) :=
  fetchLoop w limit fuel 0 0 []

/-- Function `fetchSavedAlbums`: `offset := 0`, `limit := 50`. -/
def fetchSavedAlbums (w : World) (accessToken : String) (fuel : Nat) : Run (List JMap) :=
  fetchSavedAlbumsWith w 50 accessToken fuel

/-- Expression `album["album"].(map[string]interface{})["name"].(string)`;
`none` when one of the two assertions fails. -/
def albumName (album : JMap) : Option String :=
  match asMap (album.get "album") with
  | none => none
  | some a => asString (a.get "name")

/-- Expression `album["album"].(map[string]interface{})["id"].(string)`;
`none` when one of the two assertions fails. -/
def albumID (album : JMap) : Option String :=
  match asMap (album.get "album") with
  | none => none
  | some a => asString (a.get "id")

/-- Loop of lines 221 to 224: the names and the identifiers of the albums, in
order; `none` when an assertion fails for some album. -/
def albumNamesAndIDs : List JMap → Option (List String × List String)
  | [] => some ([], [])
  | album :: rest =>
    match albumName album, albumID album, albumNamesAndIDs rest with
    | some name, some id, some (names, ids) => some (name :: names, id :: ids)
    | _, _, _ => none

/-- Loop of lines 59 to 62 of `main`: the assertions run for every album, whatever
the log level. -/
def debugAlbumNames : List JMap → Run Unit
  | [] => ⟨[], .returned ()⟩
  | album :: rest =>
    match albumName album with
    | none => ⟨[], .panicked⟩
    | some _ => debugAlbumNames rest

/-- Slice expression `xs[i:j]`. -/
def slice (xs : List String) (i j : Nat) : List String :=
  (xs.take j).drop i

/-- Local constant `albumsPerBatch` of line 238. -/
abbrev albumsPerBatch : Nat := 20

/-- Function `removeAlbums`; `k` numbers the DELETE exchanges of the run. -/
def removeAlbums (w : World) (accessToken : String) (k : Nat) (albumIDs : List String) :
    Run Unit :=
  match w.deleteReply k albumIDs with
  | .createError => ⟨[], .fatal "failed to create request"⟩
  | .transportError => ⟨[.albumsDelete albumIDs], .fatal "failed to remove albums"⟩
  | .status code =>
    if code ≠ 200 then
      ⟨[.albumsDelete albumIDs], .fatal "failed to remove albums"⟩
    else
      ⟨[.albumsDelete albumIDs], .returned ()⟩

/-- Loop of lines 241 to 255, entered with the loop variable at `i`. -/
def removeLoop (w : World) (accessToken : String) (albumIDs : List String) (i : Nat) :
    Run Unit :=
  if h : i < albumIDs.length then
    let totalAlbums := albumIDs.length
    let endIdx := if i + albumsPerBatch > totalAlbums then totalAlbums else i + albumsPerBatch
    (removeAlbums w accessToken (i / albumsPerBatch) (slice albumIDs i endIdx)).bind fun _ =>
      Run.after [.progressTitle endIdx totalAlbums, .progressAdd albumsPerBatch]
        (removeLoop w accessToken albumIDs (i + albumsPerBatch))
  else
    ⟨[], .returned ()⟩
termination_by albumIDs.length - i
decreasing_by
  have hb : albumsPerBatch = 20 := rfl
  omega

/-- Function `confirmAndRemoveAlbums`. -/
def confirmAndRemoveAlbums (w : World) (accessToken : String) (albums : List JMap) :
    Run Unit :=
  match albumNamesAndIDs albums with
  | none => ⟨[], .panicked⟩
  | some (_, albumIDs) =>
    if !w.confirm then
      ⟨[.confirmPrompt w.confirm, .info "operation cancelled by user"], .returned ()⟩
    else
      Run.after [.confirmPrompt w.confirm, .progressStart albumIDs.length]
        ((removeLoop w accessToken albumIDs 0).bind fun _ =>
          ⟨[.info "all saved albums removed successfully"], .returned ()⟩)

/-- Function `main`. -/
def main (w : World) (fuel : Nat) : Run Unit :=
  (generateState w).bind fun state =>
  (authorize w state).bind fun authCode =>
  (getAccessToken w authCode).bind fun accessToken =>
  (fetchSavedAlbums w accessToken fuel).bind fun albums =>
  (debugAlbumNames albums).bind fun _ =>
  confirmAndRemoveAlbums w accessToken albums

/-! ## Specification-side definitions and sample inputs -/

/-- Batch number `j` (from 0) of a list of identifiers. -/
def batch (ids : List String) (j : Nat) : List String :=
  slice ids (albumsPerBatch * j) (albumsPerBatch * j + albumsPerBatch)

/-- Number of batches of `n` identifiers: `n / 20` rounded up. -/
def batchCount (n : Nat) : Nat :=
  (n + (albumsPerBatch - 1)) / albumsPerBatch


/-- Configuration with the defaults of `main.go`. -/
def sampleCfg : Config :=
  ⟨false, "client", "secret", "127.0.0.1:4001", "http://127.0.0.1:4001/callback",
    "user-library-read user-library-modify"⟩

/-- Saved item whose nested album has the given identifier and name. -/
def mkAlbum (id name : String) : JMap :=
  [("album", .obj [("id", .str id), ("name", .str name)])]

/-- Forty-five identifiers "0", "1", up to "44". -/
def sampleIDs : List String :=
  (List.range 45).map fun n => toString n

/-- Forty-five saved items. -/
def sampleAlbums : List JMap :=
  sampleIDs.map fun s => mkAlbum s "name"

/-- Listing page of an empty library. -/
def emptyPage : HttpReply :=
  .body 200 (some (.obj [("items", .arr []), ("total", .num 0)]))

/-- World of a user with an empty library who confirms; every DELETE gives 200. -/
def sampleWorld : World where
  cfg := sampleCfg
  queryEscape := fun s => s
  trimSpace := fun s => s
  opensslOutput := some "0123456789abcdef0123456789abcdef"
  listenFails := false
  callbacks := [[("code", "abc"), ("state", "0123456789abcdef0123456789abcdef")]]
  tokenReply := .body 200 (some (.obj [("access_token", .str "tok")]))
  albumsReply := fun _ _ => emptyPage
  confirm := true
  deleteReply := fun _ _ => .status 200

/-- Same world with a user who declines. -/
def declinedWorld : World :=
  { sampleWorld with confirm := false }

/-- Same world, but the second DELETE gives 500. -/
def failingWorld : World :=
  { sampleWorld with deleteReply := fun k _ => if k = 1 then .status 500 else .status 200 }

/-- Decoded view of a well-formed listing reply: a body that is a JSON object
whose `items` is an array of objects and whose `total` is a number that is not
negative; `none` for every other reply. -/
def wellFormedPage : HttpReply → Option (List JMap × Int)
  | .body _ (some (.obj kvs)) =>
    match asArray (JMap.get kvs "items"), asNumber (JMap.get kvs "total") with
    | some items, some total =>
      match assertMaps items with
      | some maps => if 0 ≤ total then some (maps, total) else none
      | none => none
    | _, _ => none
  | _ => none

/-- A provider that is consistent for a library of `total` items read in pages
of `limit`: every reply is well formed, reports `total`, and the page asked at
offset `o` holds exactly `min limit (total - o)` items. -/
def ConsistentProvider (w : World) (limit total : Nat) : Prop :=
  ∀ k o, ∃ maps, wellFormedPage (w.albumsReply k o) = some (maps, (total : Int)) ∧
    maps.length = min limit (total - o)

/-- Offsets of the first `m` requests for pages of `limit`. -/
def pageRequests (limit m : Nat) : List (Nat × Nat) :=
  (List.range m).map fun k => (limit, limit * k)

/-- Items of the page at offset `o` of a library of `total` albums read in
pages of 50: the albums numbered `o` to `o + min 50 (total - o) - 1`. -/
def libraryItems (total o : Nat) : List JMap :=
  (List.range (min 50 (total - o))).map fun i => mkAlbum (toString (o + i)) "name"

/-- World of a user with `total` saved albums and a consistent provider. -/
def libraryWorld (total : Nat) : World :=
  { sampleWorld with
    albumsReply := fun _ o =>
      .body 200 (some (.obj [("items", .arr ((libraryItems total o).map JVal.obj)),
                             ("total", .num (total : Int))])) }

/-- A trace without library requests, prompts and DELETE requests. -/
def Quiet (es : List Event) : Prop :=
  albumsGets es = [] ∧ prompts es = [] ∧ deleteRequests es = []

/-- World in which the only request reaching `/callback` carries an empty
`code` parameter. -/
def emptyCodeWorld : World :=
  { sampleWorld with callbacks := [[("code", ""), ("state", "0123456789abcdef0123456789abcdef")]] }

/-- World whose token endpoint answers with an error object. -/
def noTokenWorld : World :=
  { sampleWorld with tokenReply := .body 400 (some (.obj [("error", .str "invalid_grant")])) }
/-! ## Helper results: traces and the removal loop -/

theorem bind_of_returned {α β : Type} (r : Run α) (f : α → Run β) (a : α)
    (h : r.outcome = .returned a) :
    r.bind f = ⟨r.trace ++ (f a).trace, (f a).outcome⟩ := by
  unfold Run.bind
  rw [h]

theorem bind_cases {α β : Type} (r : Run α) (f : α → Run β) :
    ((r.bind f).trace = r.trace ∧ ∀ b, (r.bind f).outcome ≠ .returned b) ∨
    ∃ a, r.outcome = .returned a ∧ r.bind f = ⟨r.trace ++ (f a).trace, (f a).outcome⟩ := by
  cases h : r.outcome with
  | returned a => exact Or.inr ⟨a, rfl, bind_of_returned r f a h⟩
  | fatal msg => left; unfold Run.bind; rw [h]; simp
  | panicked => left; unfold Run.bind; rw [h]; simp
  | blocked => left; unfold Run.bind; rw [h]; simp
  | outOfFuel => left; unfold Run.bind; rw [h]; simp

theorem deleteRequests_append (xs ys : List Event) :
    deleteRequests (xs ++ ys) = deleteRequests xs ++ deleteRequests ys := by
  induction xs with
  | nil => rfl
  | cons e rest ih => cases e <;> simp [deleteRequests, ih]

theorem progressAdds_append (xs ys : List Event) :
    progressAdds (xs ++ ys) = progressAdds xs ++ progressAdds ys := by
  induction xs with
  | nil => rfl
  | cons e rest ih => cases e <;> simp [progressAdds, ih]

theorem progressTitles_append (xs ys : List Event) :
    progressTitles (xs ++ ys) = progressTitles xs ++ progressTitles ys := by
  induction xs with
  | nil => rfl
  | cons e rest ih => cases e <;> simp [progressTitles, ih]

theorem prompts_append (xs ys : List Event) :
    prompts (xs ++ ys) = prompts xs ++ prompts ys := by
  induction xs with
  | nil => rfl
  | cons e rest ih => cases e <;> simp [prompts, ih]

theorem albumsGets_append (xs ys : List Event) :
    albumsGets (xs ++ ys) = albumsGets xs ++ albumsGets ys := by
  induction xs with
  | nil => rfl
  | cons e rest ih => cases e <;> simp [albumsGets, ih]

theorem slice_clamp (ids : List String) (i : Nat) :
    slice ids i (if i + albumsPerBatch > ids.length then ids.length else i + albumsPerBatch)
      = slice ids i (i + albumsPerBatch) := by
  unfold slice
  split
  · rename_i h
    rw [List.take_length, List.take_of_length_le (by omega)]
  · rfl

theorem removeLoop_done (w : World) (tok : String) (ids : List String) (i : Nat)
    (h : ¬ i < ids.length) :
    removeLoop w tok ids i = ⟨[], .returned ()⟩ := by
  rw [removeLoop]; simp [h]

theorem removeLoop_step (w : World) (tok : String) (ids : List String) (i : Nat)
    (h : i < ids.length) :
    removeLoop w tok ids i =
      (removeAlbums w tok (i / albumsPerBatch) (slice ids i (i + albumsPerBatch))).bind fun _ =>
        Run.after [.progressTitle (min (i + albumsPerBatch) ids.length) ids.length,
                   .progressAdd albumsPerBatch]
          (removeLoop w tok ids (i + albumsPerBatch)) := by
  have hmin : (if i + albumsPerBatch > ids.length then ids.length else i + albumsPerBatch)
      = min (i + albumsPerBatch) ids.length := by
    split <;> omega
  rw [removeLoop]
  simp only [h, dite_true, slice_clamp]
  rw [hmin]

theorem removeAlbums_ok (w : World) (tok : String) (k : Nat) (b : List String)
    (h : w.deleteReply k b = .status 200) :
    removeAlbums w tok k b = ⟨[.albumsDelete b], .returned ()⟩ := by
  simp [removeAlbums, h]

theorem removeAlbums_bad (w : World) (tok : String) (k : Nat) (b : List String) (s : Nat)
    (h : w.deleteReply k b = .status s) (hs : s ≠ 200) :
    removeAlbums w tok k b = ⟨[.albumsDelete b], .fatal "failed to remove albums"⟩ := by
  simp [removeAlbums, h, hs]

theorem batchCount_le_iff (n j : Nat) : batchCount n ≤ j ↔ n ≤ albumsPerBatch * j := by
  unfold batchCount albumsPerBatch
  omega

theorem removeLoop_ok (w : World) (tok : String) (ids : List String)
    (hok : ∀ j, j < batchCount ids.length → w.deleteReply j (batch ids j) = .status 200) :
    ∀ n j, batchCount ids.length - j = n →
      (removeLoop w tok ids (albumsPerBatch * j)).outcome = .returned () ∧
      deleteRequests (removeLoop w tok ids (albumsPerBatch * j)).trace
        = (List.range n).map (fun t => batch ids (j + t)) ∧
      progressAdds (removeLoop w tok ids (albumsPerBatch * j)).trace
        = List.replicate n albumsPerBatch ∧
      progressTitles (removeLoop w tok ids (albumsPerBatch * j)).trace
        = (List.range n).map
            (fun t => (min (albumsPerBatch * (j + t) + albumsPerBatch) ids.length, ids.length)) := by
  intro n
  induction n with
  | zero =>
    intro j hj
    have hle : batchCount ids.length ≤ j := by omega
    rw [batchCount_le_iff] at hle
    rw [removeLoop_done w tok ids _ (by omega)]
    simp [deleteRequests, progressAdds, progressTitles]
  | succ n ih =>
    intro j hj
    have hlt : j < batchCount ids.length := by omega
    have hlt2 : albumsPerBatch * j < ids.length := by
      have := (batchCount_le_iff ids.length j).not.mp (by omega)
      omega
    have hdiv : albumsPerBatch * j / albumsPerBatch = j := by
      unfold albumsPerBatch; omega
    have hnext : albumsPerBatch * j + albumsPerBatch = albumsPerBatch * (j + 1) := by
      unfold albumsPerBatch; omega
    obtain ⟨h1, h2, h3, h4⟩ := ih (j + 1) (by omega)
    rw [removeLoop_step w tok ids _ hlt2, hdiv]
    have hb : slice ids (albumsPerBatch * j) (albumsPerBatch * j + albumsPerBatch) = batch ids j := rfl
    rw [hb, removeAlbums_ok w tok j _ (hok j hlt), hnext]
    have hshift1 : (List.range n).map ((fun t => batch ids (j + t)) ∘ Nat.succ)
        = (List.range n).map (fun t => batch ids (j + 1 + t)) := by
      apply List.map_congr_left
      intro t _
      simp only [Function.comp, Nat.succ_eq_add_one]
      congr 1
      omega
    have hshift2 : (List.range n).map
          ((fun t => (min (albumsPerBatch * (j + t) + albumsPerBatch) ids.length, ids.length))
            ∘ Nat.succ)
        = (List.range n).map
          (fun t => (min (albumsPerBatch * (j + 1 + t) + albumsPerBatch) ids.length,
            ids.length)) := by
      apply List.map_congr_left
      intro t _
      simp only [Function.comp, Nat.succ_eq_add_one]
      have : j + (t + 1) = j + 1 + t := by omega
      rw [this]
    simp only [Run.bind, Run.after, List.range_succ_eq_map, List.map_cons, List.map_map,
      List.replicate_succ, deleteRequests_append, progressAdds_append, progressTitles_append,
      hshift1, hshift2, h2, h3, h4]
    exact ⟨h1, rfl, rfl, rfl⟩

/-! ## Batches of a list -/

theorem slice_length (ids : List String) (i j : Nat) :
    (slice ids i j).length = min j ids.length - i := by
  simp [slice]

theorem batch_length (ids : List String) (j : Nat) :
    (batch ids j).length
      = min (albumsPerBatch * j + albumsPerBatch) ids.length - albumsPerBatch * j := by
  simp [batch, slice_length]

theorem join_batches (ids : List String) (m : Nat) :
    ((List.range m).map (batch ids)).flatten = ids.take (albumsPerBatch * m) := by
  induction m with
  | zero => simp
  | succ m ih =>
    rw [List.range_succ, List.map_append, List.flatten_append, ih]
    simp only [List.map_cons, List.map_nil, List.flatten_cons, List.flatten_nil, List.append_nil,
      batch, slice]
    have h1 : ids.take (albumsPerBatch * m)
        = (ids.take (albumsPerBatch * m + albumsPerBatch)).take (albumsPerBatch * m) := by
      rw [List.take_take]
      congr 1
      omega
    have h2 : albumsPerBatch * (m + 1) = albumsPerBatch * m + albumsPerBatch := by
      unfold albumsPerBatch; omega
    rw [h2]
    conv_lhs => rw [h1]
    exact List.take_append_drop _ _

theorem join_all_batches (ids : List String) :
    ((List.range (batchCount ids.length)).map (batch ids)).flatten = ids := by
  rw [join_batches]
  apply List.take_of_length_le
  have := (batchCount_le_iff ids.length (batchCount ids.length)).mp (le_refl _)
  exact this

theorem removeLoop_fails (w : World) (tok : String) (ids : List String) (k s : Nat)
    (hk : k < batchCount ids.length)
    (hprev : ∀ j, j < k → w.deleteReply j (batch ids j) = .status 200)
    (hbad : w.deleteReply k (batch ids k) = .status s) (hs : s ≠ 200) :
    ∀ n j, k - j = n → j ≤ k →
      (removeLoop w tok ids (albumsPerBatch * j)).outcome = .fatal "failed to remove albums" ∧
      deleteRequests (removeLoop w tok ids (albumsPerBatch * j)).trace
        = (List.range (n + 1)).map (fun t => batch ids (j + t)) := by
  intro n
  induction n with
  | zero =>
    intro j hj hjk
    have hjk2 : j = k := by omega
    subst hjk2
    have hlt2 : albumsPerBatch * j < ids.length := by
      have := (batchCount_le_iff ids.length j).not.mp (by omega)
      omega
    have hdiv : albumsPerBatch * j / albumsPerBatch = j := by
      unfold albumsPerBatch; omega
    have hb : slice ids (albumsPerBatch * j) (albumsPerBatch * j + albumsPerBatch)
        = batch ids j := rfl
    rw [removeLoop_step w tok ids _ hlt2, hdiv, hb, removeAlbums_bad w tok j _ s hbad hs]
    simp [Run.bind, deleteRequests, List.range_succ]
  | succ n ih =>
    intro j hj hjk
    have hlt : j < k := by omega
    have hlt2 : albumsPerBatch * j < ids.length := by
      have := (batchCount_le_iff ids.length j).not.mp (by omega)
      omega
    have hdiv : albumsPerBatch * j / albumsPerBatch = j := by
      unfold albumsPerBatch; omega
    have hnext : albumsPerBatch * j + albumsPerBatch = albumsPerBatch * (j + 1) := by
      unfold albumsPerBatch; omega
    have hb : slice ids (albumsPerBatch * j) (albumsPerBatch * j + albumsPerBatch)
        = batch ids j := rfl
    obtain ⟨h1, h2⟩ := ih (j + 1) (by omega) (by omega)
    rw [removeLoop_step w tok ids _ hlt2, hdiv, hb, removeAlbums_ok w tok j _ (hprev j hlt),
      hnext]
    have hshift : (List.range (n + 1)).map ((fun t => batch ids (j + t)) ∘ Nat.succ)
        = (List.range (n + 1)).map (fun t => batch ids (j + 1 + t)) := by
      apply List.map_congr_left
      intro t _
      simp only [Function.comp, Nat.succ_eq_add_one]
      congr 1
      omega
    rw [List.range_succ_eq_map (n + 1)]
    simp only [Run.bind, Run.after, List.map_cons, List.map_map, deleteRequests_append,
      hshift, h2]
    exact ⟨h1, rfl⟩

theorem mem_prompts (b : Bool) (es : List Event) (h : Event.confirmPrompt b ∈ es) :
    b ∈ prompts es := by
  induction es with
  | nil => cases h
  | cons e rest ih =>
    rcases List.mem_cons.mp h with h1 | h1
    · subst h1
      simp [prompts]
    · cases e <;> simp [prompts, ih h1]

theorem removeAlbums_prompts (w : World) (tok : String) (k : Nat) (b : List String) :
    prompts (removeAlbums w tok k b).trace = [] := by
  unfold removeAlbums
  split
  · rfl
  · rfl
  · split <;> rfl

theorem removeLoop_prompts (w : World) (tok : String) (ids : List String) :
    ∀ n i, ids.length - i = n → prompts (removeLoop w tok ids i).trace = [] := by
  intro n
  induction n using Nat.strong_induction_on with
  | _ n ih =>
    intro i hi
    by_cases h : i < ids.length
    · rw [removeLoop_step w tok ids i h]
      have hrec := ih (ids.length - (i + albumsPerBatch))
        (by unfold albumsPerBatch; omega) (i + albumsPerBatch) rfl
      have hra := removeAlbums_prompts w tok (i / albumsPerBatch)
        (slice ids i (i + albumsPerBatch))
      unfold Run.bind
      split <;> simp_all [Run.after, prompts_append, prompts]
    · rw [removeLoop_done w tok ids i h]
      rfl

theorem confirmed_run (w : World) (tok : String) (albums : List JMap)
    (names ids : List String)
    (hshape : albumNamesAndIDs albums = some (names, ids))
    (hconfirm : w.confirm = true)
    (hok : ∀ j, j < batchCount ids.length → w.deleteReply j (batch ids j) = .status 200) :
    (confirmAndRemoveAlbums w tok albums).outcome = .returned () ∧
    deleteRequests (confirmAndRemoveAlbums w tok albums).trace
      = (List.range (batchCount ids.length)).map (batch ids) ∧
    progressAdds (confirmAndRemoveAlbums w tok albums).trace
      = List.replicate (batchCount ids.length) albumsPerBatch ∧
    progressTitles (confirmAndRemoveAlbums w tok albums).trace
      = (List.range (batchCount ids.length)).map
          (fun t => (min (albumsPerBatch * t + albumsPerBatch) ids.length, ids.length)) := by
  obtain ⟨h1, h2, h3, h4⟩ := removeLoop_ok w tok ids hok (batchCount ids.length) 0 rfl
  have hz : albumsPerBatch * 0 = 0 := rfl
  rw [hz] at h1 h2 h3 h4
  have hrun : confirmAndRemoveAlbums w tok albums =
      ⟨[.confirmPrompt true, .progressStart ids.length] ++
          ((removeLoop w tok ids 0).trace
            ++ [.info "all saved albums removed successfully"]), .returned ()⟩ := by
    simp only [confirmAndRemoveAlbums, hshape, hconfirm, Run.after, Bool.not_true,
      Bool.false_eq_true, if_false]
    rw [bind_of_returned _ _ () h1]
  have e1 : deleteRequests [Event.confirmPrompt true, Event.progressStart ids.length] = [] := rfl
  have e2 : deleteRequests [Event.info "all saved albums removed successfully"] = [] := rfl
  have e3 : progressAdds [Event.confirmPrompt true, Event.progressStart ids.length] = [] := rfl
  have e4 : progressAdds [Event.info "all saved albums removed successfully"] = [] := rfl
  have e5 : progressTitles [Event.confirmPrompt true, Event.progressStart ids.length] = [] := rfl
  have e6 : progressTitles [Event.info "all saved albums removed successfully"] = [] := rfl
  rw [hrun]
  simp only [deleteRequests_append, progressAdds_append, progressTitles_append, h2, h3, h4,
    e1, e2, e3, e4, e5, e6, List.nil_append, List.append_nil, Nat.zero_add, true_and,
    and_self]

/-! ## Claims on confirmation and batched removal -/

/-- C1. On a confirmed run over the identifiers `ids` in which every DELETE of
the run answers 200, `confirmAndRemoveAlbums` returns normally after exactly
`ceil(N / 20)` DELETE requests, each with at least one and at most 20
identifiers, and the batches concatenated in request order are `ids`. -/
theorem confirmAndRemoveAlbums_batches (w : World) (tok : String) (albums : List JMap)
    (names ids : List String)
    (hshape : albumNamesAndIDs albums = some (names, ids))
    (hconfirm : w.confirm = true)
    (hok : ∀ j, j < batchCount ids.length → w.deleteReply j (batch ids j) = .status 200) :
    (confirmAndRemoveAlbums w tok albums).outcome = .returned () ∧
    (deleteRequests (confirmAndRemoveAlbums w tok albums).trace).length
      = (ids.length + 19) / 20 ∧
    (∀ b ∈ deleteRequests (confirmAndRemoveAlbums w tok albums).trace,
      1 ≤ b.length ∧ b.length ≤ 20) ∧
    (deleteRequests (confirmAndRemoveAlbums w tok albums).trace).flatten = ids := by
  obtain ⟨h1, hreq, -, -⟩ := confirmed_run w tok albums names ids hshape hconfirm hok
  refine ⟨h1, ?_, ?_, ?_⟩
  · rw [hreq]
    simp [batchCount]
  · rw [hreq]
    intro b hb
    obtain ⟨j, hj, rfl⟩ := List.mem_map.mp hb
    have hj2 : j < batchCount ids.length := List.mem_range.mp hj
    have := (batchCount_le_iff ids.length j).not.mp (by omega)
    rw [batch_length]
    unfold albumsPerBatch at *
    omega
  · rw [hreq]
    exact join_all_batches ids

/-- C2. When the prompt of `confirmAndRemoveAlbums` is answered with no, the
call returns normally and no DELETE request is issued, whatever the albums. -/
theorem confirmAndRemoveAlbums_declined (w : World) (tok : String) (albums : List JMap)
    (h : Event.confirmPrompt false ∈ (confirmAndRemoveAlbums w tok albums).trace) :
    (confirmAndRemoveAlbums w tok albums).outcome = .returned () ∧
    deleteRequests (confirmAndRemoveAlbums w tok albums).trace = [] := by
  have hp := mem_prompts false _ h
  unfold confirmAndRemoveAlbums at hp ⊢
  split at hp
  · simp [prompts] at hp
  · rename_i nm albumIDs hshape
    by_cases hc : w.confirm = true
    · exfalso
      have hloop := removeLoop_prompts w tok albumIDs _ 0 rfl
      have hfin : prompts [Event.info "all saved albums removed successfully"] = [] := rfl
      simp only [hc, Bool.not_true, Bool.false_eq_true, if_false, Run.after, prompts_append]
        at hp
      rcases bind_cases (removeLoop w tok albumIDs 0)
        (fun _ => (⟨[.info "all saved albums removed successfully"], .returned ()⟩ : Run Unit))
        with ⟨h1, _⟩ | ⟨a, _, h1⟩
      · rw [h1, hloop] at hp
        simp [prompts] at hp
      · rw [h1] at hp
        simp only [prompts_append, hloop, hfin] at hp
        simp [prompts] at hp
    · simp [hc, deleteRequests]

/-- C6. On a confirmed run, when the DELETE of batch number `k` (from 0) is the
first one answered with a status other than 200, the run ends with a fatal log
after exactly the DELETE requests of batches `0` to `k`. -/
theorem removeAlbums_failure_stops (w : World) (tok : String) (albums : List JMap)
    (names ids : List String) (k s : Nat)
    (hshape : albumNamesAndIDs albums = some (names, ids))
    (hconfirm : w.confirm = true)
    (hk : k < batchCount ids.length)
    (hprev : ∀ j, j < k → w.deleteReply j (batch ids j) = .status 200)
    (hbad : w.deleteReply k (batch ids k) = .status s) (hs : s ≠ 200) :
    (confirmAndRemoveAlbums w tok albums).outcome = .fatal "failed to remove albums" ∧
    deleteRequests (confirmAndRemoveAlbums w tok albums).trace
      = (List.range (k + 1)).map (batch ids) ∧
    (deleteRequests (confirmAndRemoveAlbums w tok albums).trace).length = k + 1 := by
  obtain ⟨h1, h2⟩ := removeLoop_fails w tok ids k s hk hprev hbad hs k 0 rfl (Nat.zero_le k)
  have hz : albumsPerBatch * 0 = 0 := rfl
  rw [hz] at h1 h2
  have hrun : confirmAndRemoveAlbums w tok albums =
      ⟨[.confirmPrompt true, .progressStart ids.length] ++
          (removeLoop w tok ids 0).trace,
        .fatal "failed to remove albums"⟩ := by
    simp only [confirmAndRemoveAlbums, hshape, hconfirm, Run.after, Bool.not_true,
      Bool.false_eq_true, if_false]
    unfold Run.bind
    rw [h1]
  have e1 : deleteRequests [Event.confirmPrompt true, Event.progressStart ids.length] = [] := rfl
  have hreq : deleteRequests (confirmAndRemoveAlbums w tok albums).trace
      = (List.range (k + 1)).map (batch ids) := by
    rw [hrun]
    simp only [deleteRequests_append, e1, h2, List.nil_append, Nat.zero_add]
  refine ⟨by rw [hrun], hreq, ?_⟩
  rw [hreq]
  simp
/-! ## Helper results: the pagination loop -/

theorem assertMaps_nil_iff (items : List JVal) (maps : List JMap)
    (h : assertMaps items = some maps) : items.length = maps.length := by
  induction items generalizing maps with
  | nil =>
    simp [assertMaps] at h
    subst h
    rfl
  | cons v rest ih =>
    unfold assertMaps at h
    split at h
    · rename_i m ms hm hms
      simp at h
      subst h
      simp [ih ms hms]
    · simp at h

theorem fetchLoop_step (w : World) (limit fuel k offset : Nat) (acc maps : List JMap)
    (total : Int) (h : wellFormedPage (w.albumsReply k offset) = some (maps, total)) :
    fetchLoop w limit (fuel + 1) k offset acc =
      if maps.length = 0 then ⟨[.albumsGet limit offset], .returned acc⟩
      else if ((offset + limit : Nat) : Int) ≥ total then
        ⟨[.albumsGet limit offset], .returned (acc ++ maps)⟩
      else
        Run.after [.albumsGet limit offset]
          (fetchLoop w limit fuel (k + 1) (offset + limit) (acc ++ maps)) := by
  unfold wellFormedPage at h
  split at h
  · rename_i st kvs hreply
    split at h
    · rename_i items tot hitems htot
      split at h
      · rename_i ms hms
        split at h
        · simp at h
          obtain ⟨rfl, rfl⟩ := h
          have hlen := assertMaps_nil_iff items ms hms
          rw [fetchLoop, hreply]
          simp only [unmarshalMap, hitems, htot, hms]
          rw [hlen]
        · simp at h
      · simp at h
    · simp at h
  · simp at h

theorem fetchLoop_run (w : World) (limit : Nat) :
    ∀ (d k offset : Nat) (acc : List JMap) (fuel : Nat) (page : Nat → List JMap × Int),
      d < fuel →
      (∀ t, t ≤ d →
        wellFormedPage (w.albumsReply (k + t) (offset + limit * t)) = some (page t)) →
      (∀ t, t < d →
        (page t).1.length ≠ 0 ∧ ((offset + limit * t + limit : Nat) : Int) < (page t).2) →
      ((page d).1.length = 0 ∨ (page d).2 ≤ ((offset + limit * d + limit : Nat) : Int)) →
      fetchLoop w limit fuel k offset acc =
        ⟨(List.range (d + 1)).map (fun t => Event.albumsGet limit (offset + limit * t)),
          .returned (acc ++ ((List.range (d + 1)).map fun t => (page t).1).flatten)⟩ := by
  intro d
  induction d with
  | zero =>
    intro k offset acc fuel page hfuel hwf _ hstop
    obtain ⟨f, rfl⟩ : ∃ f, fuel = f + 1 := ⟨fuel - 1, by omega⟩
    have h0 := hwf 0 (le_refl 0)
    simp only [Nat.add_zero, Nat.mul_zero] at h0 hstop
    rw [fetchLoop_step w limit f k offset acc (page 0).1 (page 0).2 h0]
    by_cases hz : (page 0).1.length = 0
    · have hnil : (page 0).1 = [] := List.length_eq_zero.mp hz
      simp [hz, hnil, List.range_succ]
    · have hge : (page 0).2 ≤ (offset : Int) + (limit : Int) := by
        rcases hstop with h | h
        · exact absurd h hz
        · push_cast at h
          exact h
      simp [hz, hge, List.range_succ]
  | succ d ih =>
    intro k offset acc fuel page hfuel hwf hgo hstop
    obtain ⟨f, rfl⟩ : ∃ f, fuel = f + 1 := ⟨fuel - 1, by omega⟩
    have h0 := hwf 0 (Nat.zero_le _)
    obtain ⟨hne, hlt⟩ := hgo 0 (Nat.succ_pos d)
    simp only [Nat.add_zero, Nat.mul_zero] at h0 hlt
    rw [fetchLoop_step w limit f k offset acc (page 0).1 (page 0).2 h0]
    have hnot : ¬ (page 0).2 ≤ ((offset + limit : Nat) : Int) := by omega
    have hrec := ih (k + 1) (offset + limit) (acc ++ (page 0).1) f (fun t => page (t + 1))
      (by omega)
      (fun t ht => by
        have := hwf (t + 1) (by omega)
        have e1 : k + 1 + t = k + (t + 1) := by omega
        have e2 : offset + limit + limit * t = offset + limit * (t + 1) := by
          rw [Nat.mul_succ]; omega
        rw [e1, e2]
        exact this)
      (fun t ht => by
        have := hgo (t + 1) (by omega)
        have e2 : offset + limit + limit * t = offset + limit * (t + 1) := by
          rw [Nat.mul_succ]; omega
        rw [e2]
        exact this)
      (by
        have e2 : offset + limit + limit * d = offset + limit * (d + 1) := by
          rw [Nat.mul_succ]; omega
        rw [e2]
        exact hstop)
    rw [hrec]
    have hs1 : (List.range (d + 1)).map
          ((fun t => Event.albumsGet limit (offset + limit * t)) ∘ Nat.succ)
        = (List.range (d + 1)).map
          (fun t => Event.albumsGet limit (offset + limit + limit * t)) := by
      apply List.map_congr_left
      intro t _
      simp only [Function.comp, Nat.succ_eq_add_one]
      congr 1
      rw [Nat.mul_succ]; omega
    have hs2 : (List.range (d + 1)).map ((fun t => (page t).1) ∘ Nat.succ)
        = (List.range (d + 1)).map (fun t => (page (t + 1)).1) := rfl
    rw [List.range_succ_eq_map (d + 1)]
    simp only [hne, hnot, if_false, Run.after, List.map_cons, List.map_map, hs1, hs2,
      List.flatten_cons, List.append_assoc, List.cons_append, List.nil_append, ge_iff_le,
      Nat.mul_zero, Nat.add_zero]

theorem albumsGets_map_get (limit : Nat) (f : Nat → Nat) (l : List Nat) :
    albumsGets (l.map fun t => Event.albumsGet limit (f t)) = l.map fun t => (limit, f t) := by
  induction l with
  | nil => rfl
  | cons a rest ih => simp [albumsGets, ih]

theorem fetchLoop_gets (w : World) (limit : Nat) :
    ∀ (fuel k offset : Nat) (acc : List JMap),
      ∃ m, albumsGets (fetchLoop w limit fuel k offset acc).trace
        = (List.range m).map fun t => (limit, offset + limit * t) := by
  intro fuel
  induction fuel with
  | zero =>
    intro k offset acc
    exact ⟨0, rfl⟩
  | succ f ih =>
    intro k offset acc
    have one : albumsGets [Event.albumsGet limit offset]
        = (List.range 1).map fun t => (limit, offset + limit * t) := by
      simp [albumsGets, List.range_succ]
    unfold fetchLoop
    split
    · exact ⟨0, rfl⟩
    · exact ⟨1, one⟩
    · exact ⟨1, one⟩
    · exact ⟨1, one⟩
    · split
      · exact ⟨1, one⟩
      · split
        · exact ⟨1, one⟩
        · split
          · exact ⟨1, one⟩
          · split
            · exact ⟨1, one⟩
            · split
              · exact ⟨1, one⟩
              · split
                · exact ⟨1, one⟩
                · obtain ⟨m, hm⟩ := ih (k + 1) (offset + limit) (acc ++ ‹List JMap›)
                  refine ⟨m + 1, ?_⟩
                  rw [List.range_succ_eq_map m]
                  simp only [Run.after, albumsGets_append, hm, List.map_cons, List.map_map]
                  simp only [albumsGets, List.singleton_append, Nat.mul_zero, Nat.add_zero]
                  congr 1
                  apply List.map_congr_left
                  intro t _
                  simp only [Function.comp, Nat.succ_eq_add_one]
                  congr 1
                  rw [Nat.mul_succ]; omega
/-! ## Claims on pagination -/

theorem assertMaps_objs (ms : List JMap) : assertMaps (ms.map JVal.obj) = some ms := by
  induction ms with
  | nil => rfl
  | cons m rest ih => simp [assertMaps, asMap, ih]

theorem wellFormedPage_libraryWorld (total k o : Nat) :
    wellFormedPage ((libraryWorld total).albumsReply k o)
      = some (libraryItems total o, (total : Int)) := by
  simp [libraryWorld, wellFormedPage, JMap.get, asArray, asNumber, assertMaps_objs]

theorem libraryWorld_consistent (total : Nat) : ConsistentProvider (libraryWorld total) 50 total := by
  intro k o
  exact ⟨libraryItems total o, wellFormedPage_libraryWorld total k o, by simp [libraryItems]⟩

theorem flatten_full_pages (limit total : Nat) (f : Nat → List JMap)
    (hlen : ∀ t, (f t).length = min limit (total - limit * t)) :
    ∀ m, limit * m ≤ total → (((List.range m).map f).flatten).length = limit * m := by
  intro m
  induction m with
  | zero => intro _; simp
  | succ m ih =>
    intro hm
    have hm1 : limit * m + limit ≤ total := by
      rw [Nat.mul_succ] at hm; exact hm
    rw [List.range_succ, List.map_append, List.flatten_append, List.length_append,
      ih (by omega)]
    simp only [List.map_cons, List.map_nil, List.flatten_cons, List.flatten_nil,
      List.append_nil, hlen, Nat.mul_succ]
    omega

/-- C3, as amended. Against a consistent provider for a library of `total`
albums read in pages of `limit > 0`, `fetchSavedAlbums` returns a sequence of
length `total` after exactly `max 1 (ceil(total / limit))` GET requests: one
request is made even when `total = 0`. -/
theorem fetchSavedAlbums_consistent (w : World) (tok : String) (limit total fuel : Nat)
    (hlimit : 0 < limit) (hcons : ConsistentProvider w limit total)
    (hfuel : total / limit < fuel) :
    ∃ albums, (fetchSavedAlbumsWith w limit tok fuel).outcome = .returned albums ∧
      albums.length = total ∧
      (albumsGets (fetchSavedAlbumsWith w limit tok fuel).trace).length
        = max 1 ((total + limit - 1) / limit) := by
  choose f hf hflen using hcons
  have hd1 : limit * ((total - 1) / limit) ≤ total - 1 := Nat.mul_div_le _ _
  have hd2 : total - 1 < limit * ((total - 1) / limit + 1) := Nat.lt_mul_div_succ _ hlimit
  have hd3 : (total - 1) / limit ≤ total / limit := Nat.div_le_div_right (Nat.sub_le _ _)
  have hrun := fetchLoop_run w limit ((total - 1) / limit) 0 0 [] fuel
    (fun t => (f t (limit * t), (total : Int))) (by omega)
    (fun t _ => by simpa using hf t (limit * t))
    (fun t ht => by
      have h1 : limit * (t + 1) ≤ limit * ((total - 1) / limit) :=
        Nat.mul_le_mul_left _ ht
      rw [Nat.mul_succ] at h1
      refine ⟨?_, ?_⟩
      · simp only [hflen]
        omega
      · simp only [Nat.zero_add]
        omega)
    (by
      right
      rw [Nat.mul_succ] at hd2
      simp only [Nat.zero_add]
      omega)
  refine ⟨((List.range ((total - 1) / limit + 1)).map fun t => f t (limit * t)).flatten,
    ?_, ?_, ?_⟩
  · simp only [fetchSavedAlbumsWith, hrun, List.nil_append]
  · rw [List.range_succ, List.map_append, List.flatten_append, List.length_append,
      flatten_full_pages limit total (fun t => f t (limit * t)) (fun t => hflen t _)
        ((total - 1) / limit) (by omega)]
    simp only [List.map_cons, List.map_nil, List.flatten_cons, List.flatten_nil,
      List.append_nil, hflen]
    rw [Nat.mul_succ] at hd2
    omega
  · simp only [fetchSavedAlbumsWith, hrun, Nat.zero_add, albumsGets_map_get, List.length_map,
      List.length_range]
    rcases Nat.eq_zero_or_pos total with h0 | hpos
    · subst h0
      have h1 : (0 + limit - 1) / limit = 0 := Nat.div_eq_of_lt (by omega)
      have h2 : (0 - 1) / limit = 0 := by simp
      rw [h1, h2]
      rfl
    · have h1 : total + limit - 1 = (total - 1) + limit := by omega
      rw [h1, Nat.add_div_right _ hlimit]
      generalize (total - 1) / limit = d
      simp

/-- C4. The requests of `fetchSavedAlbums` are always at offsets 0, 50, 100 and
so on; when the replies up to page `n` (from 0) are well formed and page `n` is
the first that is empty or has `offset + 50 >= total`, the call returns right
after the request for page `n`, with the items of pages `0` to `n` in order. -/
theorem fetchSavedAlbums_pagination (w : World) (tok : String) :
    (∀ fuel, ∃ m, albumsGets (fetchSavedAlbums w tok fuel).trace = pageRequests 50 m) ∧
    ∀ (n : Nat) (page : Nat → List JMap × Int),
      (∀ k, k ≤ n → wellFormedPage (w.albumsReply k (50 * k)) = some (page k)) →
      (∀ k, k < n → (page k).1.length ≠ 0 ∧ ((50 * k + 50 : Nat) : Int) < (page k).2) →
      ((page n).1.length = 0 ∨ (page n).2 ≤ ((50 * n + 50 : Nat) : Int)) →
      ∀ fuel, n < fuel →
        (fetchSavedAlbums w tok fuel).outcome
          = .returned (((List.range (n + 1)).map fun k => (page k).1).flatten) ∧
        albumsGets (fetchSavedAlbums w tok fuel).trace = pageRequests 50 (n + 1) := by
  constructor
  · intro fuel
    obtain ⟨m, hm⟩ := fetchLoop_gets w 50 fuel 0 0 []
    refine ⟨m, ?_⟩
    simpa [fetchSavedAlbums, fetchSavedAlbumsWith, pageRequests] using hm
  · intro n page hwf hgo hstop fuel hfuel
    have hrun := fetchLoop_run w 50 n 0 0 [] fuel page hfuel
      (fun t ht => by simpa using hwf t ht)
      (fun t ht => by simpa using hgo t ht)
      (by simpa using hstop)
    simp only [fetchSavedAlbums, fetchSavedAlbumsWith, hrun, List.nil_append, Nat.zero_add,
      albumsGets_map_get, pageRequests, and_self]
/-! ## Helper results: sequencing and the stages before the library is read -/

theorem quiet_append (xs ys : List Event) (hx : Quiet xs) (hy : Quiet ys) : Quiet (xs ++ ys) := by
  obtain ⟨a, b, c⟩ := hx
  obtain ⟨d, e, f⟩ := hy
  exact ⟨by rw [albumsGets_append, a, d]; rfl, by rw [prompts_append, b, e]; rfl,
    by rw [deleteRequests_append, c, f]; rfl⟩

theorem generateState_quiet (w : World) : Quiet (generateState w).trace := by
  unfold generateState
  split <;> exact ⟨rfl, rfl, rfl⟩

theorem awaitCode_quiet (qs : List Query) : Quiet (awaitCode qs).trace := by
  induction qs with
  | nil => exact ⟨rfl, rfl, rfl⟩
  | cons q rest ih =>
    unfold awaitCode
    dsimp only
    split
    · exact ⟨rfl, rfl, rfl⟩
    · exact quiet_append _ _ ⟨rfl, rfl, rfl⟩ ih

theorem authorize_quiet (w : World) (state : String) : Quiet (authorize w state).trace := by
  unfold authorize
  refine quiet_append _ _ ⟨rfl, rfl, rfl⟩ ?_
  split
  · exact ⟨rfl, rfl, rfl⟩
  · refine quiet_append _ _ ⟨rfl, rfl, rfl⟩ ?_
    rcases bind_cases (awaitCode w.callbacks)
      (fun code => (⟨[.info "oauth callback received"], .returned code⟩ : Run String))
      with ⟨h, _⟩ | ⟨a, _, h⟩
    · rw [h]
      exact awaitCode_quiet _
    · rw [h]
      exact quiet_append _ _ (awaitCode_quiet _) ⟨rfl, rfl, rfl⟩

theorem getAccessToken_quiet (w : World) (code : String) : Quiet (getAccessToken w code).trace := by
  unfold getAccessToken
  split
  · exact ⟨rfl, rfl, rfl⟩
  · exact ⟨rfl, rfl, rfl⟩
  · exact ⟨rfl, rfl, rfl⟩
  · exact ⟨rfl, rfl, rfl⟩
  · split
    · exact ⟨rfl, rfl, rfl⟩
    · split <;> exact ⟨rfl, rfl, rfl⟩

theorem main_stops_at_token (w : World) (fuel : Nat)
    (h : ∀ code t, (getAccessToken w code).outcome ≠ .returned t) :
    Quiet (main w fuel).trace ∧ ∀ u, (main w fuel).outcome ≠ .returned u := by
  unfold main
  rcases bind_cases (generateState w) (fun state =>
      (authorize w state).bind fun authCode =>
      (getAccessToken w authCode).bind fun accessToken =>
      (fetchSavedAlbums w accessToken fuel).bind fun albums =>
      (debugAlbumNames albums).bind fun _ =>
      confirmAndRemoveAlbums w accessToken albums) with ⟨h1, h2⟩ | ⟨state, _, h1⟩
  · exact ⟨by rw [h1]; exact generateState_quiet w, h2⟩
  · rw [h1]
    rcases bind_cases (authorize w state) (fun authCode =>
        (getAccessToken w authCode).bind fun accessToken =>
        (fetchSavedAlbums w accessToken fuel).bind fun albums =>
        (debugAlbumNames albums).bind fun _ =>
        confirmAndRemoveAlbums w accessToken albums) with ⟨h3, h4⟩ | ⟨code, _, h3⟩
    · exact ⟨by rw [h3]; exact quiet_append _ _ (generateState_quiet w) (authorize_quiet w state),
        h4⟩
    · rw [h3]
      rcases bind_cases (getAccessToken w code) (fun accessToken =>
          (fetchSavedAlbums w accessToken fuel).bind fun albums =>
          (debugAlbumNames albums).bind fun _ =>
          confirmAndRemoveAlbums w accessToken albums) with ⟨h5, h6⟩ | ⟨t, ht, _⟩
      · exact ⟨by
          rw [h5]
          exact quiet_append _ _ (generateState_quiet w)
            (quiet_append _ _ (authorize_quiet w state) (getAccessToken_quiet w code)), h6⟩
      · exact absurd ht (h code t)

theorem awaitCode_congr (l1 l2 : List Query)
    (h : l1.map callbackHandler = l2.map callbackHandler) : awaitCode l1 = awaitCode l2 := by
  induction l1 generalizing l2 with
  | nil =>
    cases l2 with
    | nil => rfl
    | cons q rest => simp at h
  | cons q1 r1 ih =>
    cases l2 with
    | nil => simp at h
    | cons q2 r2 =>
      simp only [List.map_cons, List.cons.injEq] at h
      obtain ⟨hq, hr⟩ := h
      unfold awaitCode
      simp only [hq, ih r2 hr]

theorem authorize_outcome (w : World) (state : String) :
    (authorize w state).outcome =
      if w.listenFails then .fatal "failed to start http server"
      else (awaitCode w.callbacks).outcome := by
  unfold authorize
  by_cases hl : w.listenFails = true
  · simp [hl, Run.after]
  · simp only [hl, Run.after, Bool.false_eq_true, if_false]
    rcases bind_cases (awaitCode w.callbacks)
      (fun code => (⟨[.info "oauth callback received"], .returned code⟩ : Run String))
      with ⟨h1, h2⟩ | ⟨a, ha, h⟩
    · unfold Run.bind
      cases hc : (awaitCode w.callbacks).outcome <;> simp
    · rw [h, ha]

theorem awaitCode_blocked (qs : List Query) (h : ∀ q ∈ qs, Query.get q "code" = "") :
    (awaitCode qs).outcome = .blocked := by
  induction qs with
  | nil => rfl
  | cons q rest ih =>
    have hq : Query.get q "code" = "" := h q (List.mem_cons_self _ _)
    have hrest := ih (fun q' hq' => h q' (List.mem_cons_of_mem _ hq'))
    unfold awaitCode
    simp [callbackHandler, hq, Run.after, hrest]

theorem get_of_not_has (q : Query) (key : String) (h : Query.has q key = false) :
    Query.get q key = "" := by
  induction q with
  | nil => rfl
  | cons kv rest ih =>
    obtain ⟨k, v⟩ := kv
    unfold Query.has at h
    unfold Query.get
    by_cases hk : k = key
    · simp [hk] at h
    · simp only [hk, if_false] at h ⊢
      exact ih h
/-! ## Claims on the callback, the token exchange and the whole program -/

theorem confirmAndRemoveAlbums_nil (w : World) (tok : String) :
    prompts (confirmAndRemoveAlbums w tok []).trace = [w.confirm] ∧
    deleteRequests (confirmAndRemoveAlbums w tok []).trace = [] ∧
    (confirmAndRemoveAlbums w tok []).outcome = .returned () := by
  unfold confirmAndRemoveAlbums
  simp only [albumNamesAndIDs]
  by_cases hc : w.confirm = true
  · have hloop := removeLoop_done w tok [] 0 (by simp)
    simp [hc, Run.after, Run.bind, hloop, prompts, deleteRequests]
  · simp [hc, prompts, deleteRequests]

theorem fetch_of_empty_items (w : World) (tok : String) (fuel st : Nat)
    (doc : JVal) (m : JMap)
    (hreply : w.albumsReply 0 0 = .body st (some doc)) (hdoc : unmarshalMap doc = some m)
    (hitems : asArray (JMap.get m "items") = some []) :
    fetchSavedAlbums w tok (fuel + 1) = ⟨[.albumsGet 50 0], .returned []⟩ := by
  simp [fetchSavedAlbums, fetchSavedAlbumsWith, fetchLoop, hreply, hdoc, hitems]

/-- C5, as amended. When the `items` array of the first page is empty,
`fetchSavedAlbums` returns the empty sequence after that one request;
`confirmAndRemoveAlbums`, which `main` calls unconditionally, still shows the
prompt once, and whatever the answer no DELETE request is issued and the
program returns normally. -/
theorem empty_first_page (w : World) (tok : String) (fuel st : Nat) (doc : JVal) (m : JMap)
    (hreply : w.albumsReply 0 0 = .body st (some doc)) (hdoc : unmarshalMap doc = some m)
    (hitems : asArray (JMap.get m "items") = some []) :
    fetchSavedAlbums w tok (fuel + 1) = ⟨[.albumsGet 50 0], .returned []⟩ ∧
    prompts (confirmAndRemoveAlbums w tok []).trace = [w.confirm] ∧
    deleteRequests (confirmAndRemoveAlbums w tok []).trace = [] ∧
    (confirmAndRemoveAlbums w tok []).outcome = .returned () ∧
    ∀ state code token,
      (generateState w).outcome = .returned state →
      (authorize w state).outcome = .returned code →
      (getAccessToken w code).outcome = .returned token →
      prompts (main w (fuel + 1)).trace = [w.confirm] ∧
      deleteRequests (main w (fuel + 1)).trace = [] ∧
      (main w (fuel + 1)).outcome = .returned () := by
  obtain ⟨hp, hd, ho⟩ := confirmAndRemoveAlbums_nil w tok
  refine ⟨fetch_of_empty_items w tok fuel st doc m hreply hdoc hitems, hp, hd, ho, ?_⟩
  intro state code token hgs hauth htok
  obtain ⟨hp2, hd2, ho2⟩ := confirmAndRemoveAlbums_nil w token
  obtain ⟨-, g2, g3⟩ := generateState_quiet w
  obtain ⟨-, a2, a3⟩ := authorize_quiet w state
  obtain ⟨-, t2, t3⟩ := getAccessToken_quiet w code
  have hfetch := fetch_of_empty_items w token fuel st doc m hreply hdoc hitems
  have hmain : main w (fuel + 1) =
      ⟨(generateState w).trace ++ ((authorize w state).trace ++ ((getAccessToken w code).trace
          ++ ([.albumsGet 50 0] ++ ([] ++ (confirmAndRemoveAlbums w token []).trace)))),
        (confirmAndRemoveAlbums w token []).outcome⟩ := by
    unfold main
    rw [bind_of_returned _ _ state hgs]
    try dsimp only
    rw [bind_of_returned _ _ code hauth]
    try dsimp only
    rw [bind_of_returned _ _ token htok]
    try dsimp only
    rw [hfetch]
    rfl
  have e1 : prompts [Event.albumsGet 50 0] = [] := rfl
  have e2 : deleteRequests [Event.albumsGet 50 0] = [] := rfl
  have e3 : prompts [] = [] := rfl
  have e4 : deleteRequests [] = [] := rfl
  rw [hmain]
  simp only [prompts_append, deleteRequests_append, g2, g3, a2, a3, t2, t3, hp2, hd2, ho2,
    e1, e2, e3, e4, List.nil_append, List.append_nil, and_self]

/-- C7, as amended. The `/callback` handler answers with the confirmation page
(status 200) and sends the code exactly when the first value of the `code`
parameter is not empty; a parameter that is absent or empty gives 401 and
nothing is sent, and while only such requests arrive `authorize` stays blocked. -/
theorem callback_code (q : Query) :
    (Query.get q "code" ≠ "" →
      callbackHandler q = ⟨200, "authorization code received. you can close this window.",
        some (Query.get q "code")⟩) ∧
    (Query.get q "code" = "" → callbackHandler q = ⟨401, "authorization failed\n", none⟩) ∧
    (Query.has q "code" = false → callbackHandler q = ⟨401, "authorization failed\n", none⟩) ∧
    ∀ (w : World) (state : String), w.listenFails = false →
      (∀ q' ∈ w.callbacks, Query.get q' "code" = "") →
      (authorize w state).outcome = .blocked := by
  refine ⟨?_, ?_, ?_, ?_⟩
  · intro h
    simp [callbackHandler, h]
  · intro h
    simp [callbackHandler, h]
  · intro h
    simp [callbackHandler, get_of_not_has q "code" h]
  · intro w state hl hq
    rw [authorize_outcome, hl]
    simpa using awaitCode_blocked w.callbacks hq

theorem getAccessToken_not_json (w : World) (c : String) (st : Nat)
    (hreply : w.tokenReply = .body st none) :
    getAccessToken w c = ⟨[.tokenPost c], .fatal "failed to unmarshal response"⟩ := by
  unfold getAccessToken
  rw [hreply]

theorem getAccessToken_json (w : World) (c : String) (st : Nat) (d : JVal)
    (hreply : w.tokenReply = .body st (some d)) :
    getAccessToken w c =
      match unmarshalMap d with
      | none => ⟨[.tokenPost c], .fatal "failed to unmarshal response"⟩
      | some result =>
        match asString (JMap.get result "access_token") with
        | none => ⟨[.tokenPost c], .fatal "access token not found in response"⟩
        | some accessToken => ⟨[.tokenPost c], .returned accessToken⟩ := by
  unfold getAccessToken
  rw [hreply]

/-- C8. For a token-endpoint body, `getAccessToken` returns `t` exactly when the
body is a JSON object whose `access_token` is the string `t`; a body that is
not JSON or has no `access_token` field ends the process with a fatal log
("access token not found in response" for an object without the field), and
`main` makes no saved-albums request. -/
theorem getAccessToken_spec (w : World) (code : String) (st : Nat) (doc : Option JVal)
    (hreply : w.tokenReply = .body st doc) :
    (∀ t, (getAccessToken w code).outcome = .returned t ↔
      ∃ kvs, doc = some (.obj kvs) ∧ JMap.get kvs "access_token" = some (.str t)) ∧
    ((∀ kvs, doc = some (.obj kvs) → JMap.get kvs "access_token" = none) →
      (∃ msg, (getAccessToken w code).outcome = .fatal msg) ∧
      ∀ fuel, albumsGets (main w fuel).trace = [] ∧
        ∀ u, (main w fuel).outcome ≠ .returned u) ∧
    (∀ kvs, doc = some (.obj kvs) → JMap.get kvs "access_token" = none →
      (getAccessToken w code).outcome = .fatal "access token not found in response") := by
  refine ⟨?_, ?_, ?_⟩
  · intro t
    cases doc with
    | none => simp [getAccessToken_not_json w code st hreply]
    | some d =>
      rw [getAccessToken_json w code st d hreply]
      cases d with
      | obj kvs =>
        simp only [unmarshalMap]
        cases hg : JMap.get kvs "access_token" with
        | none => simp [asString, hg]
        | some v => cases v <;> simp [asString, hg]
      | null => simp [unmarshalMap, JMap.get, asString]
      | bool b => simp [unmarshalMap]
      | num n => simp [unmarshalMap]
      | str s => simp [unmarshalMap]
      | arr xs => simp [unmarshalMap]
  · intro hno
    have hfatal : ∀ c, ∃ msg, (getAccessToken w c).outcome = .fatal msg := by
      intro c
      cases doc with
      | none => exact ⟨_, by rw [getAccessToken_not_json w c st hreply]⟩
      | some d =>
        rw [getAccessToken_json w c st d hreply]
        cases d with
        | obj kvs =>
          have hg := hno kvs rfl
          exact ⟨"access token not found in response", by simp [unmarshalMap, hg, asString]⟩
        | null => exact ⟨"access token not found in response", by
            simp [unmarshalMap, JMap.get, asString]⟩
        | bool b => exact ⟨_, rfl⟩
        | num n => exact ⟨_, rfl⟩
        | str s => exact ⟨_, rfl⟩
        | arr xs => exact ⟨_, rfl⟩
    refine ⟨hfatal code, ?_⟩
    intro fuel
    have hstop := main_stops_at_token w fuel (fun c t ht => by
      obtain ⟨msg, hm⟩ := hfatal c
      rw [hm] at ht
      cases ht)
    exact ⟨hstop.1.1, hstop.2⟩
  · intro kvs hd hg
    subst hd
    rw [getAccessToken_json w code st _ hreply]
    simp [unmarshalMap, hg, asString]

/-- C9. The `/callback` handler never looks at `state`: two requests whose `code`
parameter has the same value get the same response and send the same value,
and `authorize` ends the same way whichever of the two arrives and whatever
the generated state is. -/
theorem callback_ignores_state (q1 q2 : Query)
    (h : Query.get q1 "code" = Query.get q2 "code") :
    callbackHandler q1 = callbackHandler q2 ∧
    ∀ (w : World) (state1 state2 : String) (before later : List Query),
      (authorize { w with callbacks := before ++ q1 :: later } state1).outcome
        = (authorize { w with callbacks := before ++ q2 :: later } state2).outcome := by
  have hh : callbackHandler q1 = callbackHandler q2 := by
    unfold callbackHandler
    rw [h]
  refine ⟨hh, ?_⟩
  intro w state1 state2 before later
  rw [authorize_outcome, authorize_outcome]
  have hc : awaitCode (before ++ q1 :: later) = awaitCode (before ++ q2 :: later) :=
    awaitCode_congr _ _ (by simp [hh])
  simp only [hc]
/-! ## Concrete runs -/

theorem sampleAlbums_shape :
    albumNamesAndIDs sampleAlbums = some (List.replicate 45 "name", sampleIDs) := by
  decide

/-- Witness for C1: 45 identifiers give three DELETE requests, of sizes 20, 20
and 5. -/
theorem confirmAndRemoveAlbums_batches_witness :
    ((confirmAndRemoveAlbums sampleWorld "tok" sampleAlbums).outcome = .returned () ∧
      (deleteRequests (confirmAndRemoveAlbums sampleWorld "tok" sampleAlbums).trace).length
        = (sampleIDs.length + 19) / 20 ∧
      (∀ b ∈ deleteRequests (confirmAndRemoveAlbums sampleWorld "tok" sampleAlbums).trace,
        1 ≤ b.length ∧ b.length ≤ 20) ∧
      (deleteRequests (confirmAndRemoveAlbums sampleWorld "tok" sampleAlbums).trace).flatten
        = sampleIDs) ∧
    (deleteRequests (confirmAndRemoveAlbums sampleWorld "tok" sampleAlbums).trace).map
      List.length = [20, 20, 5] :=
  ⟨confirmAndRemoveAlbums_batches sampleWorld "tok" sampleAlbums (List.replicate 45 "name")
      sampleIDs sampleAlbums_shape rfl (fun _ _ => rfl),
    by
      rw [(confirmed_run sampleWorld "tok" sampleAlbums (List.replicate 45 "name")
        sampleIDs sampleAlbums_shape rfl (fun _ _ => rfl)).2.1]
      decide⟩

/-- Witness for C2: 45 albums and a user who declines. -/
theorem confirmAndRemoveAlbums_declined_witness :
    Event.confirmPrompt false ∈ (confirmAndRemoveAlbums declinedWorld "tok" sampleAlbums).trace ∧
    (confirmAndRemoveAlbums declinedWorld "tok" sampleAlbums).outcome = .returned () ∧
    deleteRequests (confirmAndRemoveAlbums declinedWorld "tok" sampleAlbums).trace = [] :=
  ⟨by decide, confirmAndRemoveAlbums_declined declinedWorld "tok" sampleAlbums (by decide)⟩

/-- Witness for C6: 45 identifiers, the second DELETE answers 500, and exactly
two requests are issued. -/
theorem removeAlbums_failure_stops_witness :
    (confirmAndRemoveAlbums failingWorld "tok" sampleAlbums).outcome
      = .fatal "failed to remove albums" ∧
    deleteRequests (confirmAndRemoveAlbums failingWorld "tok" sampleAlbums).trace
      = (List.range 2).map (batch sampleIDs) ∧
    (deleteRequests (confirmAndRemoveAlbums failingWorld "tok" sampleAlbums).trace).length = 2 :=
  removeAlbums_failure_stops failingWorld "tok" sampleAlbums (List.replicate 45 "name")
    sampleIDs 1 500 sampleAlbums_shape rfl (by decide)
    (fun j hj => by
      have h0 : j = 0 := by omega
      subst h0
      rfl)
    rfl (by decide)

/-- C10 fails on the code at 45 identifiers: `p.Add(20)` runs after each of the
three batches, so 60 is added to a bar created with total 45, while the titles
show 20/45, 40/45 and 45/45. -/
theorem progress_overshoots_total :
    sampleIDs.length = 45 ∧
    progressAdds (confirmAndRemoveAlbums sampleWorld "tok" sampleAlbums).trace = [20, 20, 20] ∧
    (progressAdds (confirmAndRemoveAlbums sampleWorld "tok" sampleAlbums).trace).sum = 60 ∧
    progressTitles (confirmAndRemoveAlbums sampleWorld "tok" sampleAlbums).trace
      = [(20, 45), (40, 45), (45, 45)] := by
  obtain ⟨-, -, h3, h4⟩ := confirmed_run sampleWorld "tok" sampleAlbums
    (List.replicate 45 "name") sampleIDs sampleAlbums_shape rfl (fun _ _ => rfl)
  rw [h3, h4]
  decide

/-- Counterexample to C3 as stated, an empty library: the provider is
consistent for `total = 0`, `ceil(0 / 50) = 0`, and one GET request is made. -/
theorem fetchSavedAlbums_zero_total :
    ConsistentProvider sampleWorld 50 0 ∧
    (0 + 50 - 1) / 50 = 0 ∧
    (∀ fuel, fetchSavedAlbums sampleWorld "tok" (fuel + 1)
      = ⟨[.albumsGet 50 0], .returned []⟩) ∧
    (albumsGets (fetchSavedAlbums sampleWorld "tok" 1).trace).length = 1 :=
  ⟨fun _ o => ⟨[], rfl, by simp⟩, rfl,
    fun fuel => fetch_of_empty_items sampleWorld "tok" fuel 200
      (.obj [("items", .arr []), ("total", .num 0)]) [("items", .arr []), ("total", .num 0)]
      rfl rfl rfl,
    rfl⟩

/-- Witness for C3 as amended: a library of 125 albums gives three requests and
125 items. -/
theorem fetchSavedAlbums_consistent_witness :
    (0 < 50 ∧ ConsistentProvider (libraryWorld 125) 50 125 ∧ 125 / 50 < 3) ∧
    ∃ albums, (fetchSavedAlbums (libraryWorld 125) "tok" 3).outcome = .returned albums ∧
      albums.length = 125 ∧
      (albumsGets (fetchSavedAlbums (libraryWorld 125) "tok" 3).trace).length
        = max 1 ((125 + 50 - 1) / 50) :=
  ⟨⟨by decide, libraryWorld_consistent 125, by decide⟩,
    fetchSavedAlbums_consistent (libraryWorld 125) "tok" 50 125 3 (by decide)
      (libraryWorld_consistent 125) (by decide)⟩

/-- Witness for C4: a library of 125 albums gives requests at offsets 0, 50 and
100, and the call returns after the third page with the items of the three
pages. -/
theorem fetchSavedAlbums_pagination_witness :
    (fetchSavedAlbums (libraryWorld 125) "tok" 3).outcome
      = .returned (libraryItems 125 0 ++ (libraryItems 125 50 ++ libraryItems 125 100)) ∧
    albumsGets (fetchSavedAlbums (libraryWorld 125) "tok" 3).trace
      = [(50, 0), (50, 50), (50, 100)] := by
  have h := (fetchSavedAlbums_pagination (libraryWorld 125) "tok").2 2
    (fun k => (libraryItems 125 (50 * k), 125))
    (fun k _ => wellFormedPage_libraryWorld 125 k (50 * k))
    (fun k hk => by
      simp only [libraryItems, List.length_map, List.length_range]
      push_cast
      omega)
    (Or.inr (by decide)) 3 (by decide)
  simpa [List.range_succ, pageRequests] using h

/-- Counterexample to C5 as stated: with an empty first page the program still
shows the prompt (here answered with no). -/
theorem main_prompts_on_empty_library :
    declinedWorld.albumsReply 0 0
      = .body 200 (some (.obj [("items", .arr []), ("total", .num 0)])) ∧
    fetchSavedAlbums declinedWorld "tok" 1 = ⟨[.albumsGet 50 0], .returned []⟩ ∧
    prompts (main declinedWorld 1).trace = [false] ∧
    Event.confirmPrompt false ∈ (main declinedWorld 1).trace :=
  ⟨rfl, rfl, by decide, by decide⟩

/-- Witness for C5 as amended: a user with an empty library who confirms. -/
theorem empty_first_page_witness :
    fetchSavedAlbums sampleWorld "tok" 1 = ⟨[.albumsGet 50 0], .returned []⟩ ∧
    prompts (main sampleWorld 1).trace = [true] ∧
    deleteRequests (main sampleWorld 1).trace = [] ∧
    (main sampleWorld 1).outcome = .returned () :=
  have h := empty_first_page sampleWorld "tok" 0 200
    (.obj [("items", .arr []), ("total", .num 0)]) [("items", .arr []), ("total", .num 0)]
    rfl rfl rfl
  ⟨h.1, h.2.2.2.2 "0123456789abcdef0123456789abcdef" "abc" "tok" rfl rfl rfl⟩

/-- Counterexample to C7 as stated, `/callback?code=`: the parameter is present,
the answer is 401, nothing is sent and `authorize` stays blocked. -/
theorem callback_empty_code_rejected :
    Query.has [("code", ""), ("state", "0123456789abcdef0123456789abcdef")] "code" = true ∧
    callbackHandler [("code", ""), ("state", "0123456789abcdef0123456789abcdef")]
      = ⟨401, "authorization failed\n", none⟩ ∧
    (authorize emptyCodeWorld "0123456789abcdef0123456789abcdef").outcome = .blocked :=
  ⟨by decide, by decide, by decide⟩

/-- Witness for C7 as amended: a request with a code and one without. -/
theorem callback_code_witness :
    callbackHandler [("code", "abc"), ("state", "s")]
      = ⟨200, "authorization code received. you can close this window.", some "abc"⟩ ∧
    callbackHandler [("state", "s")] = ⟨401, "authorization failed\n", none⟩ ∧
    (authorize emptyCodeWorld "s").outcome = .blocked :=
  ⟨(callback_code [("code", "abc"), ("state", "s")]).1 (by decide),
    (callback_code [("state", "s")]).2.2.1 (by decide),
    (callback_code []).2.2.2 emptyCodeWorld "s" rfl (by decide)⟩

/-- Witness for C8: a token endpoint that answers with an error object. -/
theorem getAccessToken_spec_witness :
    (getAccessToken noTokenWorld "abc").outcome = .fatal "access token not found in response" ∧
    albumsGets (main noTokenWorld 5).trace = [] ∧
    ((getAccessToken sampleWorld "abc").outcome = .returned "tok" ↔
      ∃ kvs, some (JVal.obj [("access_token", JVal.str "tok")]) = some (JVal.obj kvs) ∧
        JMap.get kvs "access_token" = some (JVal.str "tok")) :=
  ⟨(getAccessToken_spec noTokenWorld "abc" 400
      (some (.obj [("error", .str "invalid_grant")])) rfl).2.2
      [("error", .str "invalid_grant")] rfl rfl,
    ((getAccessToken_spec noTokenWorld "abc" 400
      (some (.obj [("error", .str "invalid_grant")])) rfl).2.1
      (fun kvs h => by
        cases h
        rfl)).2 5 |>.1,
    (getAccessToken_spec sampleWorld "abc" 200
      (some (.obj [("access_token", .str "tok")])) rfl).1 "tok"⟩

/-- Witness for C9: two callbacks with the same code, one echoing the generated
state and one carrying another state. -/
theorem callback_ignores_state_witness :
    Query.get [("code", "abc"), ("state", "0123456789abcdef0123456789abcdef")] "code"
      = Query.get [("code", "abc"), ("state", "forged")] "code" ∧
    callbackHandler [("code", "abc"), ("state", "0123456789abcdef0123456789abcdef")]
      = callbackHandler [("code", "abc"), ("state", "forged")] ∧
    (authorize { sampleWorld with
        callbacks := [] ++ [("code", "abc"), ("state", "0123456789abcdef0123456789abcdef")] :: [] }
        "0123456789abcdef0123456789abcdef").outcome
      = (authorize { sampleWorld with
        callbacks := [] ++ [("code", "abc"), ("state", "forged")] :: [] }
        "0123456789abcdef0123456789abcdef").outcome :=
  have h := callback_ignores_state
    [("code", "abc"), ("state", "0123456789abcdef0123456789abcdef")]
    [("code", "abc"), ("state", "forged")] (by decide)
  ⟨by decide, h.1, h.2 sampleWorld _ _ [] []⟩

end SpotifyUtils
